import Mathlib

/-!
Verification of the request gatekeeper of `src/auth.py`: IP allow-listing
(`check_ip_allowed`), sliding-window rate limiting (`is_rate_limited`),
credential authentication (`authenticate_user`) and the decorator pipeline
(`requires_auth`, `requires_admin`).  Timestamps are modelled as integer
time units (the code only subtracts and compares them, so any linearly
ordered carrier is faithful; `RATE_LIMIT_WINDOW` is an int in the source),
the `request_history` dictionary as a partial map from address strings to
timestamp lists, and the external `ipaddress` library as an abstract parse
function together with a membership test for each configured range.
-/

namespace SensorAuth

/-- User roles: `ROLE_ADMIN` and `ROLE_VIEWER` in `src/auth.py`. -/
inductive Role where
  | admin
  | viewer
deriving DecidableEq, Repr

/-- A stored user entry, one value of the `USERS` dictionary:
`{'password': ..., 'role': ...}`. -/
structure UserData where
  password : String
  role : Role
deriving DecidableEq, Repr

/-- The user data `authenticate_user` attaches to a request on success:
`{'username': ..., 'role': ...}`. -/
structure AuthUser where
  username : String
  role : Role
deriving DecidableEq, Repr

/-- An HTTP Basic Auth credential: the `auth.username` / `auth.password`
pair read by `authenticate_user`. -/
structure Credential where
  username : String
  password : String
deriving DecidableEq, Repr

/-- Rate limiting configuration: `RATE_LIMIT_WINDOW` (seconds) and
`MAX_REQUESTS` (max requests per window). -/
structure RateConfig where
  window : Int
  maxRequests : Nat
deriving DecidableEq, Repr

/-- The `request_history` table: IP address to list of timestamps;
`none` means the key is absent from the dictionary. -/
def RateState : Type := String → Option (List Int)

/-- Dictionary assignment `request_history[ip_addr] = v`. -/
def RateState.set (st : RateState) (ip_addr : String) (v : List Int) :
    RateState :=
  fun a => if a = ip_addr then some v else st a

/-- The initial `request_history = {}`: every address absent. -/
def emptyHistory : RateState := fun _ => none

/-- `check_ip_allowed` of `src/auth.py`.  The external `ipaddress` library
is abstracted: `parse` stands for `ipaddress.ip_address` (with `none` for a
`ValueError`), and each configured range is represented by its membership
test `ip in allowed_range`. -/
def check_ip_allowed {IP : Type} (parse : String → Option IP)
    (allowed_ip_ranges : List (IP → Bool)) (ip_addr : String) : Bool :=
  if allowed_ip_ranges.isEmpty then
    true
  else
    match parse ip_addr with
    | some ip => allowed_ip_ranges.any fun r => r ip
    | none => false

/-- `is_rate_limited` of `src/auth.py`, returning the decision together
with the updated `request_history` table.  It first stores the initialized
or pruned list for `ip_addr`, then compares its length with `MAX_REQUESTS`,
and appends `now` only in the not-limited branch. -/
def is_rate_limited (cfg : RateConfig) (st : RateState) (ip_addr : String)
    (now : Int) : Bool × RateState :=
  let st1 : RateState :=
    match st ip_addr with
    | none => st.set ip_addr []
    | some ts => st.set ip_addr (ts.filter fun t => now - t < cfg.window)
  let hist : List Int := (st1 ip_addr).getD []
  if cfg.maxRequests ≤ hist.length then
    (true, st1)
  else
    (false, st1.set ip_addr (hist ++ [now]))

/-- `authenticate_user` of `src/auth.py`.  The `(False, None)` /
`(True, user_data)` result pair is rendered as an `Option AuthUser`; the
`USERS` dictionary is an association list with exact string keys. -/
def authenticate_user (users : List (String × UserData))
    (auth : Option Credential) : Option AuthUser :=
  match auth with
  | none => none
  | some a =>
    match users.lookup a.username with
    | some ud =>
      if ud.password = a.password then
        some { username := a.username, role := ud.role }
      else
        none
    | none => none

/-- The outcome of a decorated request: the error responses returned by
`requires_auth` / `requires_admin` (`denyIp` = 403 access denied, `denyRate`
= 429 too many requests, `denyAuth` = 401 authentication required,
`denyAdmin` = 403 admin privileges required), or success, carrying the
authenticated `user_data`. -/
inductive Decision where
  | denyIp
  | denyRate
  | denyAuth
  | denyAdmin
  | permit (user : AuthUser)
deriving DecidableEq, Repr

/-- The check sequence of the `requires_auth` decorator of `src/auth.py`:
IP allow-list, then rate limit, then authentication. -/
def requires_auth {IP : Type} (parse : String → Option IP)
    (ranges : List (IP → Bool)) (users : List (String × UserData))
    (cfg : RateConfig) (st : RateState) (ip_addr : String) (now : Int)
    (auth : Option Credential) : Decision × RateState :=
  if !check_ip_allowed parse ranges ip_addr then
    (.denyIp, st)
  else
    let r := is_rate_limited cfg st ip_addr now
    if r.1 then
      (.denyRate, r.2)
    else
      match authenticate_user users auth with
      | none => (.denyAuth, r.2)
      | some u => (.permit u, r.2)

/-- The `requires_admin` decorator of `src/auth.py`: run the
`requires_auth` checks (a deny there is returned unchanged), then deny
unless the authenticated user's role is `ROLE_ADMIN`. -/
def requires_admin {IP : Type} (parse : String → Option IP)
    (ranges : List (IP → Bool)) (users : List (String × UserData))
    (cfg : RateConfig) (st : RateState) (ip_addr : String) (now : Int)
    (auth : Option Credential) : Decision × RateState :=
  let r := requires_auth parse ranges users cfg st ip_addr now auth
  match r.1 with
  | .permit u =>
    if u.role ≠ Role.admin then (.denyAdmin, r.2) else (.permit u, r.2)
  | d => (d, r.2)

/-- Modelled from the spec: the Gatekeeper pipeline of spec section 4.5 —
AddressCheck, RateCheck, AuthenticationCheck, then AuthorizationCheck when
the operation declares the Administrator role as required.  Stated from the
spec's words to compare with `requires_auth` / `requires_admin`. -/
def gatekeeperSpec {IP : Type} (adminRequired : Bool)
    (parse : String → Option IP) (ranges : List (IP → Bool))
    (users : List (String × UserData)) (cfg : RateConfig) (st : RateState)
    (ip_addr : String) (now : Int) (auth : Option Credential) :
    Decision × RateState :=
  if !check_ip_allowed parse ranges ip_addr then
    (.denyIp, st)
  else
    let r := is_rate_limited cfg st ip_addr now
    if r.1 then
      (.denyRate, r.2)
    else
      match authenticate_user users auth with
      | none => (.denyAuth, r.2)
      | some u =>
        if adminRequired ∧ u.role ≠ Role.admin then
          (.denyAdmin, r.2)
        else
          (.permit u, r.2)

/-- The pruned history of an address at time `now`: the recorded timestamps
still inside the window (an absent address yields the fresh empty list). -/
def prunedHist (cfg : RateConfig) (st : RateState) (ip_addr : String)
    (now : Int) : List Int :=
  match st ip_addr with
  | none => []
  | some ts => ts.filter fun t => now - t < cfg.window

/-- Iterate `is_rate_limited` over a list of call times for one address,
collecting the decisions and threading the table through. -/
def rateCalls (cfg : RateConfig) (st : RateState) (ip_addr : String) :
    List Int → List Bool × RateState
  | [] => ([], st)
  | t :: ts =>
    let r := is_rate_limited cfg st ip_addr t
    let rs := rateCalls cfg r.2 ip_addr ts
    (r.1 :: rs.1, rs.2)

theorem RateState.set_same (st : RateState) (ip_addr : String)
    (v : List Int) : st.set ip_addr v ip_addr = some v := by
  simp [RateState.set]

theorem RateState.set_other (st : RateState) (ip_addr a : String)
    (v : List Int) (h : a ≠ ip_addr) : st.set ip_addr v a = st a := by
  simp [RateState.set, h]

theorem RateState.set_set (st : RateState) (ip_addr : String)
    (v w : List Int) :
    (st.set ip_addr v).set ip_addr w = st.set ip_addr w := by
  funext a
  by_cases h : a = ip_addr <;> simp [RateState.set, h]

theorem RateState.set_eq_self (st : RateState) (ip_addr : String)
    (v : List Int) (h : st ip_addr = some v) : st.set ip_addr v = st := by
  funext a
  by_cases ha : a = ip_addr <;> simp [RateState.set, ha, h.symm]

/-- `is_rate_limited` in terms of the pruned history: limited with no
append when the pruned list already has `MAX_REQUESTS` entries, otherwise
allowed with `now` appended. -/
theorem is_rate_limited_eq (cfg : RateConfig) (st : RateState)
    (ip_addr : String) (now : Int) :
    is_rate_limited cfg st ip_addr now =
      if cfg.maxRequests ≤ (prunedHist cfg st ip_addr now).length then
        (true, st.set ip_addr (prunedHist cfg st ip_addr now))
      else
        (false, st.set ip_addr (prunedHist cfg st ip_addr now ++ [now])) := by
  unfold is_rate_limited prunedHist
  cases h : st ip_addr <;>
    simp [h, RateState.set_same, RateState.set_set]

theorem prunedHist_none (cfg : RateConfig) (st : RateState)
    (ip_addr : String) (now : Int) (h : st ip_addr = none) :
    prunedHist cfg st ip_addr now = [] := by
  unfold prunedHist
  rw [h]

theorem prunedHist_some (cfg : RateConfig) (st : RateState)
    (ip_addr : String) (now : Int) (ts : List Int)
    (h : st ip_addr = some ts) :
    prunedHist cfg st ip_addr now =
      ts.filter fun t => now - t < cfg.window := by
  unfold prunedHist
  rw [h]

theorem is_rate_limited_fst (cfg : RateConfig) (st : RateState)
    (ip_addr : String) (now : Int) :
    (is_rate_limited cfg st ip_addr now).1 =
      decide (cfg.maxRequests ≤ (prunedHist cfg st ip_addr now).length) := by
  rw [is_rate_limited_eq]
  by_cases hl : cfg.maxRequests ≤ (prunedHist cfg st ip_addr now).length <;>
    simp [hl]

theorem is_rate_limited_snd (cfg : RateConfig) (st : RateState)
    (ip_addr : String) (now : Int) :
    (is_rate_limited cfg st ip_addr now).2 =
      if cfg.maxRequests ≤ (prunedHist cfg st ip_addr now).length then
        st.set ip_addr (prunedHist cfg st ip_addr now)
      else
        st.set ip_addr (prunedHist cfg st ip_addr now ++ [now]) := by
  rw [is_rate_limited_eq]
  by_cases hl : cfg.maxRequests ≤ (prunedHist cfg st ip_addr now).length <;>
    simp [hl]

theorem lookup_eq_none_of_forall_ne {β : Type} (k : String) :
    ∀ l : List (String × β), (∀ p ∈ l, p.1 ≠ k) → l.lookup k = none := by
  intro l
  induction l with
  | nil => intro _; rfl
  | cons p l ih =>
    intro h
    obtain ⟨a, b⟩ := p
    have ha : (k == a) = false :=
      beq_eq_false_iff_ne.mpr (Ne.symm (h (a, b) (List.mem_cons_self _ _)))
    simpa [List.lookup, ha] using ih fun q hq => h q (List.mem_cons_of_mem _ hq)

theorem prunedHist_length_le (cfg : RateConfig) (st : RateState)
    (ip_addr : String) (now : Int)
    (hinv : ∀ b hb, st b = some hb → hb.length ≤ cfg.maxRequests) :
    (prunedHist cfg st ip_addr now).length ≤ cfg.maxRequests := by
  unfold prunedHist
  cases hs : st ip_addr with
  | none => simp
  | some ts => exact le_trans (List.length_filter_le _ _) (hinv ip_addr ts hs)

/-- Claim C4: with no configured ranges every address is permitted; with a
non-empty configuration an address is permitted exactly when it parses and
falls inside at least one configured range, and in particular a parse
failure yields not-permitted (fail-closed). -/
theorem check_ip_allowed_correct {IP : Type} (parse : String → Option IP)
    (ranges : List (IP → Bool)) (ip_addr : String) :
    (ranges = [] → check_ip_allowed parse ranges ip_addr = true) ∧
    (ranges ≠ [] →
      (check_ip_allowed parse ranges ip_addr = true ↔
        ∃ ip, parse ip_addr = some ip ∧ ∃ r ∈ ranges, r ip = true)) ∧
    (ranges ≠ [] → parse ip_addr = none →
      check_ip_allowed parse ranges ip_addr = false) := by
  refine ⟨fun h => by simp [check_ip_allowed, h], fun h => ?_, fun h hp => ?_⟩
  · have he : ranges.isEmpty = false := by
      simpa [List.isEmpty_iff] using h
    unfold check_ip_allowed
    rw [he]
    cases hp : parse ip_addr with
    | none => simp
    | some ip => simp [List.any_eq_true]
  · have he : ranges.isEmpty = false := by
      simpa [List.isEmpty_iff] using h
    unfold check_ip_allowed
    rw [he, hp]
    simp

theorem check_ip_allowed_correct_witness :
    check_ip_allowed (fun s => if s = "10.1.2.3" then some (0 : Nat) else none)
      ([] : List (Nat → Bool)) "bogus" = true ∧
    check_ip_allowed (fun s => if s = "10.1.2.3" then some (0 : Nat) else none)
      [fun ip => ip == 0] "10.1.2.3" = true ∧
    check_ip_allowed (fun s => if s = "10.1.2.3" then some (0 : Nat) else none)
      [fun ip => ip == 0] "bogus" = false :=
  ⟨(check_ip_allowed_correct _ _ _).1 rfl,
   ((check_ip_allowed_correct _ [fun ip => ip == 0] "10.1.2.3").2.1
       (List.cons_ne_nil _ _)).mpr
     ⟨0, by decide, fun ip => ip == 0, List.mem_singleton.mpr rfl, rfl⟩,
   (check_ip_allowed_correct _ [fun ip => ip == 0] "bogus").2.2
     (List.cons_ne_nil _ _) (by decide)⟩

/-- Claim C5: `authenticate_user` fails when the claimed identifier is
absent from the store (exact-match, case-sensitive lookup), fails when the
identifier is known but the claimed secret differs from the stored one
under exact equality, and returns the stored user data including its role
when identifier and secret both match. -/
theorem authenticate_user_correct (users : List (String × UserData))
    (c : Credential) (ud : UserData) :
    ((∀ p ∈ users, p.1 ≠ c.username) →
      authenticate_user users (some c) = none) ∧
    (users.lookup c.username = some ud → ud.password ≠ c.password →
      authenticate_user users (some c) = none) ∧
    (users.lookup c.username = some ud → ud.password = c.password →
      authenticate_user users (some c) =
        some { username := c.username, role := ud.role }) := by
  refine ⟨fun h => ?_, fun hl hp => ?_, fun hl hp => ?_⟩
  · simp [authenticate_user, lookup_eq_none_of_forall_ne c.username users h]
  · simp [authenticate_user, hl, hp]
  · simp [authenticate_user, hl, hp]

theorem authenticate_user_correct_witness :
    authenticate_user [("Alice", ⟨"pw1", Role.admin⟩)]
      (some ⟨"alice", "pw1"⟩) = none ∧
    authenticate_user [("Alice", ⟨"pw1", Role.admin⟩)]
      (some ⟨"Alice", "bad"⟩) = none ∧
    authenticate_user [("Alice", ⟨"pw1", Role.admin⟩)]
      (some ⟨"Alice", "pw1"⟩) = some ⟨"Alice", Role.admin⟩ :=
  ⟨(authenticate_user_correct _ ⟨"alice", "pw1"⟩ ⟨"pw1", Role.admin⟩).1
     (by decide),
   (authenticate_user_correct _ ⟨"Alice", "bad"⟩ ⟨"pw1", Role.admin⟩).2.1
     (by decide) (by decide),
   (authenticate_user_correct _ ⟨"Alice", "pw1"⟩ ⟨"pw1", Role.admin⟩).2.2
     (by decide) rfl⟩

/-- Claim C1: the decorators implement the Gatekeeper pipeline — the four
checks run strictly in the order AddressCheck, RateCheck,
AuthenticationCheck, AuthorizationCheck, short-circuiting at the first
failure with the corresponding deny reason (`requires_auth` and
`requires_admin` equal the spec pipeline without and with a required admin
role), and a request passing every check yields a permit carrying the
authenticated principal. -/
theorem gatekeeper_pipeline {IP : Type} (parse : String → Option IP)
    (ranges : List (IP → Bool)) (users : List (String × UserData))
    (cfg : RateConfig) (st : RateState) (ip_addr : String) (now : Int)
    (auth : Option Credential) (u : AuthUser) :
    requires_auth parse ranges users cfg st ip_addr now auth =
      gatekeeperSpec false parse ranges users cfg st ip_addr now auth ∧
    requires_admin parse ranges users cfg st ip_addr now auth =
      gatekeeperSpec true parse ranges users cfg st ip_addr now auth ∧
    ((requires_admin parse ranges users cfg st ip_addr now auth).1 =
        Decision.permit u ↔
      check_ip_allowed parse ranges ip_addr = true ∧
      (is_rate_limited cfg st ip_addr now).1 = false ∧
      authenticate_user users auth = some u ∧ u.role = Role.admin) := by
  unfold requires_admin requires_auth gatekeeperSpec
  cases hc : check_ip_allowed parse ranges ip_addr <;>
    cases hr : (is_rate_limited cfg st ip_addr now).1 <;>
    cases ha : authenticate_user users auth <;>
    simp [hc, hr, ha]
  case true.false.some v =>
    by_cases hv : v.role = Role.admin <;> simp [hv] <;>
      rintro rfl <;> exact hv

/-- Claim C6: under a passing address check and rate check, an operation
with no required role permits any authenticated principal, while the
admin-requiring decorator permits exactly the principals whose role is
admin and denies a viewer with the admin-403. -/
theorem authorize_role {IP : Type} (parse : String → Option IP)
    (ranges : List (IP → Bool)) (users : List (String × UserData))
    (cfg : RateConfig) (st : RateState) (ip_addr : String) (now : Int)
    (auth : Option Credential) (u : AuthUser)
    (hc : check_ip_allowed parse ranges ip_addr = true)
    (hr : (is_rate_limited cfg st ip_addr now).1 = false)
    (ha : authenticate_user users auth = some u) :
    (requires_auth parse ranges users cfg st ip_addr now auth).1 =
      Decision.permit u ∧
    ((requires_admin parse ranges users cfg st ip_addr now auth).1 =
        Decision.permit u ↔ u.role = Role.admin) ∧
    (u.role = Role.viewer →
      (requires_admin parse ranges users cfg st ip_addr now auth).1 =
        Decision.denyAdmin) := by
  unfold requires_admin requires_auth
  by_cases hv : u.role = Role.admin <;>
    simp [hc, hr, ha, hv]

theorem authorize_role_witness :
    (requires_auth (fun _ => some (0 : Nat)) ([] : List (Nat → Bool))
        [("v", ⟨"pw", Role.viewer⟩)] ⟨60, 2⟩ (fun _ => none) "9.9.9.9" 0
        (some ⟨"v", "pw"⟩)).1 = Decision.permit ⟨"v", Role.viewer⟩ ∧
    ((requires_admin (fun _ => some (0 : Nat)) ([] : List (Nat → Bool))
        [("v", ⟨"pw", Role.viewer⟩)] ⟨60, 2⟩ (fun _ => none) "9.9.9.9" 0
        (some ⟨"v", "pw"⟩)).1 = Decision.permit ⟨"v", Role.viewer⟩ ↔
      Role.viewer = Role.admin) ∧
    (Role.viewer = Role.viewer →
      (requires_admin (fun _ => some (0 : Nat)) ([] : List (Nat → Bool))
          [("v", ⟨"pw", Role.viewer⟩)] ⟨60, 2⟩ (fun _ => none) "9.9.9.9" 0
          (some ⟨"v", "pw"⟩)).1 = Decision.denyAdmin) :=
  authorize_role _ _ _ _ _ _ _ _ ⟨"v", Role.viewer⟩ rfl (by decide) (by decide)

/-- Claim C7: a request whose address fails the allow-list check leaves the
rate limiter's table exactly as it was — both decorators return the
address-deny with the original table, so no timestamp is recorded and no
entry is created. -/
theorem allowlist_denial_frame {IP : Type} (parse : String → Option IP)
    (ranges : List (IP → Bool)) (users : List (String × UserData))
    (cfg : RateConfig) (st : RateState) (ip_addr : String) (now : Int)
    (auth : Option Credential)
    (hc : check_ip_allowed parse ranges ip_addr = false) :
    requires_auth parse ranges users cfg st ip_addr now auth =
      (Decision.denyIp, st) ∧
    requires_admin parse ranges users cfg st ip_addr now auth =
      (Decision.denyIp, st) := by
  unfold requires_admin requires_auth
  simp [hc]

theorem allowlist_denial_frame_witness :
    requires_auth (fun _ => (none : Option Nat)) [fun _ => true]
      [] ⟨60, 2⟩ (fun _ => none) "8.8.8.8" 0 none =
      (Decision.denyIp, (fun _ => none : RateState)) ∧
    requires_admin (fun _ => (none : Option Nat)) [fun _ => true]
      [] ⟨60, 2⟩ (fun _ => none) "8.8.8.8" 0 none =
      (Decision.denyIp, (fun _ => none : RateState)) :=
  allowlist_denial_frame _ _ _ _ _ _ _ _ rfl

/-- Claim C10: when the address check passes and the rate budget is not
exhausted, the current timestamp is appended to the address's history even
if the credential then fails — the request is denied as unauthenticated
with the charged table, whose entry for the address ends in `now`. -/
theorem rate_charged_before_auth {IP : Type} (parse : String → Option IP)
    (ranges : List (IP → Bool)) (users : List (String × UserData))
    (cfg : RateConfig) (st : RateState) (ip_addr : String) (now : Int)
    (auth : Option Credential)
    (hc : check_ip_allowed parse ranges ip_addr = true)
    (hr : (is_rate_limited cfg st ip_addr now).1 = false)
    (ha : authenticate_user users auth = none) :
    requires_auth parse ranges users cfg st ip_addr now auth =
      (Decision.denyAuth, (is_rate_limited cfg st ip_addr now).2) ∧
    (is_rate_limited cfg st ip_addr now).2 ip_addr =
      some (prunedHist cfg st ip_addr now ++ [now]) := by
  constructor
  · unfold requires_auth
    simp [hc, hr, ha]
  · rw [is_rate_limited_eq] at hr ⊢
    by_cases hl : cfg.maxRequests ≤ (prunedHist cfg st ip_addr now).length
    · simp [hl] at hr
    · simp [hl, RateState.set_same]

theorem rate_charged_before_auth_witness :
    requires_auth (fun _ => some (0 : Nat)) ([] : List (Nat → Bool))
      [] ⟨60, 2⟩ (fun _ => none) "7.7.7.7" 5 none =
      (Decision.denyAuth,
        (is_rate_limited ⟨60, 2⟩ (fun _ => none) "7.7.7.7" 5).2) ∧
    (is_rate_limited ⟨60, 2⟩ (fun _ => none : RateState) "7.7.7.7" 5).2
        "7.7.7.7" =
      some (prunedHist ⟨60, 2⟩ (fun _ => none) "7.7.7.7" 5 ++ [5]) :=
  rate_charged_before_auth _ _ _ _ _ _ _ _ rfl (by decide) rfl

theorem rateCalls_fresh (cfg : RateConfig) (ip_addr : String) :
    ∀ (ts : List Int) (st : RateState) (h : List Int),
      st ip_addr = some h →
      h.length + ts.length ≤ cfg.maxRequests →
      (∀ t ∈ ts, ∀ x ∈ h ++ ts, t - x < cfg.window) →
      rateCalls cfg st ip_addr ts =
        (List.replicate ts.length false, st.set ip_addr (h ++ ts)) := by
  intro ts
  induction ts with
  | nil =>
    intro st h hst _ _
    simp only [rateCalls, List.length_nil, List.replicate, List.append_nil]
    rw [RateState.set_eq_self st ip_addr h hst]
  | cons t ts ih =>
    intro st h hst hlen hfresh
    simp only [List.length_cons] at hlen
    have hkeep : h.filter (fun x => t - x < cfg.window) = h :=
      List.filter_eq_self.mpr fun x hx => by
        simpa using hfresh t (List.mem_cons_self _ _)
          x (List.mem_append_left _ hx)
    have hp : prunedHist cfg st ip_addr t = h := by
      rw [prunedHist_some cfg st ip_addr t h hst, hkeep]
    have hstep : is_rate_limited cfg st ip_addr t =
        (false, st.set ip_addr (h ++ [t])) := by
      rw [is_rate_limited_eq, hp, if_neg (by omega)]
    have hrec := ih (st.set ip_addr (h ++ [t])) (h ++ [t])
      (RateState.set_same _ _ _)
      (by simp only [List.length_append, List.length_singleton]; omega)
      (fun a haa x hx => hfresh a (List.mem_cons_of_mem _ haa) x
        (by simpa [List.append_assoc] using hx))
    simp only [rateCalls, hstep, hrec, List.length_cons, List.replicate_succ]
    rw [RateState.set_set]
    simp [List.append_assoc]

/-- Claim C2: a call to the rate limiter returns limited without appending
`now` when the pruned history already has at least `MAX_REQUESTS` entries
and otherwise appends `now` and allows; consequently, from an empty
history, `MAX_REQUESTS` calls whose times all lie within one window are all
allowed, and one further call made before any of them ages out is
limited. -/
theorem rate_limiter_correct (cfg : RateConfig) (st₂ : RateState)
    (ip₂ : String) (now₂ : Int) (st : RateState) (ip_addr : String)
    (ts : List Int) (t' : Int)
    (h0 : st ip_addr = none)
    (hlen : ts.length = cfg.maxRequests)
    (hts : ∀ t ∈ ts, ∀ x ∈ ts, t - x < cfg.window)
    (ht' : ∀ x ∈ ts, t' - x < cfg.window) :
    (is_rate_limited cfg st₂ ip₂ now₂ =
      if cfg.maxRequests ≤ (prunedHist cfg st₂ ip₂ now₂).length then
        (true, st₂.set ip₂ (prunedHist cfg st₂ ip₂ now₂))
      else
        (false, st₂.set ip₂ (prunedHist cfg st₂ ip₂ now₂ ++ [now₂]))) ∧
    (rateCalls cfg st ip_addr ts).1 =
      List.replicate cfg.maxRequests false ∧
    (is_rate_limited cfg (rateCalls cfg st ip_addr ts).2 ip_addr t').1 =
      true := by
  refine ⟨is_rate_limited_eq cfg st₂ ip₂ now₂, ?_⟩
  cases ts with
  | nil =>
    simp only [List.length_nil] at hlen
    constructor
    · simp [rateCalls, ← hlen]
    · simp only [rateCalls]
      rw [is_rate_limited_fst, prunedHist_none cfg st ip_addr t' h0]
      simp [← hlen]
  | cons t ts2 =>
    have hlen' : ts2.length + 1 = cfg.maxRequests := by simpa using hlen
    have hp : prunedHist cfg st ip_addr t = [] :=
      prunedHist_none cfg st ip_addr t h0
    have hstep : is_rate_limited cfg st ip_addr t =
        (false, st.set ip_addr [t]) := by
      rw [is_rate_limited_eq, hp]
      rw [if_neg (by simp only [List.length_nil]; omega)]
      simp only [List.nil_append]
    have hrec := rateCalls_fresh cfg ip_addr ts2 (st.set ip_addr [t]) [t]
      (RateState.set_same _ _ _)
      (by simp only [List.length_singleton]; omega)
      (fun a haa x hx => hts a (List.mem_cons_of_mem _ haa) x
        (by simpa using hx))
    constructor
    · simp only [rateCalls, hstep, hrec]
      rw [← hlen']
      simp [List.replicate_succ]
    · simp only [rateCalls, hstep, hrec]
      rw [RateState.set_set]
      simp only [List.singleton_append]
      have hkeep : prunedHist cfg (st.set ip_addr (t :: ts2)) ip_addr t' =
          t :: ts2 := by
        rw [prunedHist_some _ _ _ _ _ (RateState.set_same _ _ _)]
        exact List.filter_eq_self.mpr fun x hx => by
          simpa using ht' x hx
      rw [is_rate_limited_fst, hkeep]
      simp [List.length_cons, hlen']

theorem rate_limiter_correct_witness :
    (is_rate_limited ⟨60, 2⟩ (emptyHistory.set "a" [10]) "a" 20 =
      if (2 : Nat) ≤
          (prunedHist ⟨60, 2⟩ (emptyHistory.set "a" [10]) "a" 20).length then
        (true, (emptyHistory.set "a" [10]).set "a"
          (prunedHist ⟨60, 2⟩ (emptyHistory.set "a" [10]) "a" 20))
      else
        (false, (emptyHistory.set "a" [10]).set "a"
          (prunedHist ⟨60, 2⟩ (emptyHistory.set "a" [10]) "a" 20 ++ [20]))) ∧
    (rateCalls ⟨60, 2⟩ emptyHistory "1.2.3.4" [0, 3]).1 =
      List.replicate 2 false ∧
    (is_rate_limited ⟨60, 2⟩
        (rateCalls ⟨60, 2⟩ emptyHistory "1.2.3.4" [0, 3]).2
        "1.2.3.4" 5).1 = true :=
  rate_limiter_correct ⟨60, 2⟩ (emptyHistory.set "a" [10]) "a" 20
    emptyHistory "1.2.3.4" [0, 3] 5 rfl rfl (by decide) (by decide)

/-- Claim C3 is refuted by the code: a rate-limited call does not record
the current timestamp — at the counterexample the limited call leaves the
address's stored history at its pruned value, without `now`. -/
theorem limited_call_not_recorded_cex :
    (is_rate_limited ⟨60, 1⟩ (emptyHistory.set "1.2.3.4" [10])
        "1.2.3.4" 20).1 = true ∧
    (is_rate_limited ⟨60, 1⟩ (emptyHistory.set "1.2.3.4" [10])
        "1.2.3.4" 20).2 "1.2.3.4" = some [10] ∧
    ¬ (20 : Int) ∈
      ((is_rate_limited ⟨60, 1⟩ (emptyHistory.set "1.2.3.4" [10])
          "1.2.3.4" 20).2 "1.2.3.4").getD [] := by
  decide

/-- Claim C3 (amended): the timestamp is recorded exactly on allowed calls
— a limited call stores only the pruned history for the address, while an
allowed call stores the pruned history with `now` appended. -/
theorem record_iff_allowed (cfg : RateConfig) (st : RateState)
    (ip_addr : String) (now : Int) :
    ((is_rate_limited cfg st ip_addr now).1 = true →
      (is_rate_limited cfg st ip_addr now).2 ip_addr =
        some (prunedHist cfg st ip_addr now)) ∧
    ((is_rate_limited cfg st ip_addr now).1 = false →
      (is_rate_limited cfg st ip_addr now).2 ip_addr =
        some (prunedHist cfg st ip_addr now ++ [now])) := by
  rw [is_rate_limited_eq]
  by_cases hl : cfg.maxRequests ≤ (prunedHist cfg st ip_addr now).length <;>
    simp [hl, RateState.set_same]

theorem record_iff_allowed_witness :
    (is_rate_limited ⟨60, 1⟩ (emptyHistory.set "a" [10]) "a" 20).2 "a" =
      some [10] ∧
    (is_rate_limited ⟨60, 1⟩ emptyHistory "b" 5).2 "b" = some [5] :=
  ⟨((record_iff_allowed ⟨60, 1⟩ (emptyHistory.set "a" [10]) "a" 20).1
      (by decide)).trans (by decide),
   ((record_iff_allowed ⟨60, 1⟩ emptyHistory "b" 5).2
      (by decide)).trans (by decide)⟩

/-- Claim C8 is refuted at the configuration `MAX_REQUESTS = 0`: the
address holds exactly `MAX_REQUESTS` (zero) timestamps, all of them
(vacuously) aged past the window, yet the next call is still limited, so
the address never becomes allowed again. -/
theorem window_slides_cex :
    (emptyHistory.set "1.2.3.4" []) "1.2.3.4" = some [] ∧
    (is_rate_limited ⟨60, 0⟩ (emptyHistory.set "1.2.3.4" [])
        "1.2.3.4" 1000).1 = true := by
  decide

/-- Claim C8 (amended): provided the configured maximum is positive, an
address whose `MAX_REQUESTS` recorded timestamps have all aged past the
window is allowed again on its next call — the window slides and never
locks an address out permanently. -/
theorem window_slides (cfg : RateConfig) (st : RateState) (ip_addr : String)
    (h : List Int) (now : Int)
    (hN : 0 < cfg.maxRequests)
    (hst : st ip_addr = some h)
    (hlen : h.length = cfg.maxRequests)
    (hold : ∀ t ∈ h, cfg.window ≤ now - t) :
    (is_rate_limited cfg st ip_addr now).1 = false := by
  rw [is_rate_limited_fst]
  have hp : prunedHist cfg st ip_addr now = [] := by
    rw [prunedHist_some cfg st ip_addr now h hst]
    exact List.filter_eq_nil_iff.mpr fun t ht => by
      simpa using not_lt.mpr (hold t ht)
  rw [hp]
  simp only [List.length_nil, decide_eq_false_iff_not, Nat.le_zero]
  omega

theorem window_slides_witness :
    (is_rate_limited ⟨60, 2⟩ (emptyHistory.set "a" [0, 1]) "a" 100).1 =
      false :=
  window_slides ⟨60, 2⟩ (emptyHistory.set "a" [0, 1]) "a" [0, 1] 100
    (by decide) rfl rfl (by decide)

/-- Claim C9: the bound `MAX_REQUESTS` on every address's stored history is
preserved by any call to the rate limiter, because a timestamp is appended
only when the pruned history is strictly below the maximum. -/
theorem history_bounded (cfg : RateConfig) (st : RateState)
    (ip_addr a : String) (now : Int) (h' : List Int)
    (hinv : ∀ b hb, st b = some hb → hb.length ≤ cfg.maxRequests)
    (ha : (is_rate_limited cfg st ip_addr now).2 a = some h') :
    h'.length ≤ cfg.maxRequests := by
  rw [is_rate_limited_snd] at ha
  by_cases hl : cfg.maxRequests ≤ (prunedHist cfg st ip_addr now).length
  · rw [if_pos hl] at ha
    by_cases hab : a = ip_addr
    · subst hab
      rw [RateState.set_same] at ha
      exact Option.some.inj ha ▸ prunedHist_length_le cfg st a now hinv
    · rw [RateState.set_other _ _ _ _ hab] at ha
      exact hinv a h' ha
  · rw [if_neg hl] at ha
    by_cases hab : a = ip_addr
    · subst hab
      rw [RateState.set_same] at ha
      have he := Option.some.inj ha
      rw [← he]
      simp only [List.length_append, List.length_singleton]
      omega
    · rw [RateState.set_other _ _ _ _ hab] at ha
      exact hinv a h' ha

theorem history_bounded_witness : ([5] : List Int).length ≤ 2 :=
  history_bounded ⟨60, 2⟩ emptyHistory "a" "a" 5 [5]
    (fun b hb hp => nomatch hp) (by decide)

end SensorAuth
